import Mathlib

/-!
# TileQuet container core — shallow embedding

A shallow embedding of the container-format core of the `tilequet`
repository (`src/tilequet/metadata.py` and `src/tilequet/validate.py`):
the metadata builder, the bulk writer, the streaming writer, the
metadata reader and the validator, together with proofs of the
specification claims about them.

Modelling conventions:
* A Parquet table/file is a list of rows partitioned into row groups,
  plus a schema (column name to type-name pairs) and file-level
  key-value metadata.  `pyarrow`'s `write_table(..., row_group_size=k)`
  splits the written table into consecutive row groups of at most `k`
  rows, which is modelled by `chunksOf`.
* JSON values are the inductive type `Json` (numbers as rationals;
  binary floating point itself is outside the model).  The Python
  `json` standard-library module is external to the repository; it is
  modelled at its contract level by `JsonText`: a text stored in the
  `metadata` column either is the serialization of a JSON value
  (`JsonText.valid j`, produced by `json.dumps`, recovered exactly by
  `json.loads`) or is not valid JSON (`JsonText.invalid s`, on which
  `json.loads` raises).
* Python `dict` literals/updates are association lists with
  `getKey`/`setKey` (first-match lookup, in-place replace or append),
  matching CPython's insertion-ordered dict semantics.
* Exceptions are `Except`/`Option` results; the distinct raise sites of
  `read_metadata` are the constructors of `ReadError`, following the
  error taxonomy of the specification.
* In-place mutation (Python's `list.sort`) is modelled by returning the
  post-call value of the mutated object alongside the main result.
-/

/-- JSON values (Python `json` object model; numbers as exact rationals). -/
inductive Json where
  | null
  | bool (b : Bool)
  | num (q : Rat)
  | str (s : String)
  | arr (elems : List Json)
  | obj (fields : List (String × Json))

/-- First-match lookup in an association list (Python `dict.get`: returns
`none` when the key is absent). -/
def getKey (m : List (String × Json)) (k : String) : Option Json :=
  match m with
  | [] => none
  | (k', v) :: rest => if k = k' then some v else getKey rest k

/-- Python `d[k] = v`: replace the value in place when the key exists,
otherwise append the pair (CPython dicts preserve insertion order). -/
def setKey (m : List (String × Json)) (k : String) (v : Json) :
    List (String × Json) :=
  match m with
  | [] => [(k, v)]
  | (k', v') :: rest =>
      if k = k' then (k, v) :: rest else (k', v') :: setKey rest k v

/-- Key membership (Python `k in d`). -/
def hasKey (m : List (String × Json)) (k : String) : Bool :=
  match m with
  | [] => false
  | (k', _) :: rest => k = k' || hasKey rest k

/-- Python truthiness of a JSON value (empty dict/list/string, `0`,
`False` and `None` are falsy). -/
def Json.truthy : Json → Bool
  | .null => false
  | .bool b => b
  | .num q => q != 0
  | .str s => s != ""
  | .arr l => !l.isEmpty
  | .obj l => !l.isEmpty

/-- `dict.get` on a JSON value.  Python raises `AttributeError` on a
non-dict; the claims only quantify over object-valued metadata, where
this model agrees with the code. -/
def Json.get : Json → String → Option Json
  | .obj fields, k => getKey fields k
  | _, _ => none

/-- Model of the text stored in the `metadata` column, at the contract
level of the external Python `json` module: a text either is the
serialization `json.dumps j` of a JSON value `j` (and `json.loads`
recovers exactly `j`), or is not valid JSON (and `json.loads` raises). -/
inductive JsonText where
  | valid (j : Json)
  | invalid (s : String)

/-- `json.dumps` (external stdlib, modelled at contract level). -/
def jsonDumps (j : Json) : JsonText := .valid j

/-- `json.loads` (external stdlib, modelled at contract level): `none`
models a raised `JSONDecodeError`. -/
def jsonLoads : JsonText → Option Json
  | .valid j => some j
  | .invalid _ => none

/-- Tile payload bytes. -/
abbrev Bytes := List Nat

/-- One row of a TileQuet table: columns `tile` (uint64), `metadata`
(nullable string), `data` (nullable binary), per `TILEQUET_SCHEMA`. -/
structure Row where
  tile : Nat
  metadata : Option JsonText
  data : Option Bytes

/-- The column (name, type) pairs of `TILEQUET_SCHEMA`. -/
def tilequetSchema : List (String × String) :=
  [("tile", "uint64"), ("metadata", "string"), ("data", "binary")]

/-- `TILEQUET_VERSION` in `metadata.py`. -/
def TILEQUET_VERSION : String := "0.1.0"

/-- `METADATA_TILE_ID` in `metadata.py`. -/
def METADATA_TILE_ID : Nat := 0

/-- A Parquet file: row groups of rows, a schema, and file-level
key-value metadata. -/
structure ParquetFile where
  rowGroups : List (List Row)
  schema : List (String × String)
  fileMeta : List (String × String)

/-- All rows of the file, in on-disk order. -/
def ParquetFile.rows (f : ParquetFile) : List Row := f.rowGroups.flatten

/-- Structural worker for `chunksOf`; `fuel` is an upper bound on the
list length (the `fuel = 0` branch on a nonempty list is unreachable
when so). -/
def chunksOfGo (k : Nat) : Nat → List α → List (List α)
  | _, [] => []
  | 0, l => [l]
  | fuel + 1, a :: l => (a :: l.take (k - 1)) :: chunksOfGo k fuel (l.drop (k - 1))

/-- Split a list into consecutive chunks of `k` elements (the last chunk
may be shorter); for `k = 0` behaves as chunks of one.  Models how
`pyarrow` partitions a written table into row groups of at most
`row_group_size` rows. -/
def chunksOf (k : Nat) (l : List α) : List (List α) :=
  chunksOfGo k l.length l

/-- Arguments of `create_metadata` (keyword-only in Python; `none`
models an omitted optional argument).  The environment inputs of the
call — the package `__version__` and the UTC timestamp taken inside the
function — are passed explicitly as `pkg_version` and `created_at`.
`extra` is the `**extra` keyword map, in call order. -/
structure CreateArgs where
  tile_type : String
  tile_format : String
  bounds : Option (List Rat) := none
  center : Option (List Rat) := none
  min_zoom : Int := 0
  max_zoom : Int := 14
  num_tiles : Int := 0
  name : Option String := none
  description : Option String := none
  attribution : Option String := none
  layers : Option (List Json) := none
  source_format : Option String := none
  pkg_version : String := "0.1.0"
  created_at : String := "1970-01-01T00:00:00+00:00"
  extra : List (String × Json) := []

/-- The default world bounds used by `create_metadata`
(`[-180, -85.051129, 180, 85.051129]`). -/
def defaultBounds : List Rat :=
  [-180, -(85051129 : Rat) / 1000000, 180, (85051129 : Rat) / 1000000]

/-- Python `bounds or default`: `None` and the empty list are falsy. -/
def boundsOrDefault (b : Option (List Rat)) : List Rat :=
  match b with
  | none => defaultBounds
  | some l => if l.isEmpty then defaultBounds else l

/-- The dict literal at the top of `create_metadata` (`metadata.py`
lines 114–128). -/
def createBase (a : CreateArgs) : List (String × Json) :=
  [("file_format", .str "tilequet"),
   ("version", .str TILEQUET_VERSION),
   ("tile_type", .str a.tile_type),
   ("tile_format", .str a.tile_format),
   ("bounds", .arr ((boundsOrDefault a.bounds).map Json.num)),
   ("bounds_crs", .str "EPSG:4326"),
   ("center", match a.center with
              | none => .null
              | some c => .arr (c.map Json.num)),
   ("min_zoom", .num a.min_zoom),
   ("max_zoom", .num a.max_zoom),
   ("num_tiles", .num a.num_tiles),
   ("tiling", .obj [("scheme", .str "quadbin")])]

/-- The four conditional key assignments of `create_metadata`
(`metadata.py` lines 130–137). -/
def createOptional (a : CreateArgs) : List (String × Json) :=
  let m1 := match a.name with
    | none => createBase a
    | some v => setKey (createBase a) "name" (.str v)
  let m2 := match a.description with
    | none => m1
    | some v => setKey m1 "description" (.str v)
  let m3 := match a.attribution with
    | none => m2
    | some v => setKey m2 "attribution" (.str v)
  match a.layers with
  | none => m3
  | some v => setKey m3 "layers" (.arr v)

/-- The `processing` object assigned at `metadata.py` lines 139–143. -/
def processingValue (a : CreateArgs) : Json :=
  .obj
    [("source_format", match a.source_format with
                       | none => .null
                       | some s => .str s),
     ("created_by", .str ("tilequet-io " ++ a.pkg_version)),
     ("created_at", .str a.created_at)]

/-- `create_metadata` (`metadata.py` lines 79–148): builds the base
dict in source order, conditionally adds the optional keys, adds the
`processing` object, then merges `**extra` last via `dict.update`. -/
def create_metadata (a : CreateArgs) : List (String × Json) :=
  a.extra.foldl (fun m kv => setKey m kv.1 kv.2)
    (setKey (createOptional a) "processing" (processingValue a))

/-- One element of the `tiles` argument of `write_tilequet`: a dict
with keys `tile` (uint64) and `data` (bytes). -/
structure Tile where
  tile : Nat
  data : Bytes

/-- The comparison used to sort tiles (`key=lambda t: t["tile"]`);
Python's `list.sort` is stable, as is `List.insertionSort`. -/
def tileLE (a b : Tile) : Prop := a.tile ≤ b.tile

instance : DecidableRel tileLE := fun a b => Nat.decLe a.tile b.tile

/-- Result of `write_tilequet`: the produced file, and the caller's
`tiles` list as it stands after the call (the in-place
`tiles.sort(...)`). -/
structure WriteResult where
  file : ParquetFile
  tilesAfter : List Tile

/-- `write_tilequet` (`metadata.py` lines 179–222): sorts `tiles` in
place ascending by tile id, builds the columns with the metadata row
(`METADATA_TILE_ID`, `json.dumps(metadata)`, null data) first, stamps
the `tilequet:version` file-level key, and writes with row groups of
`row_group_size` rows. -/
def write_tilequet (tiles : List Tile) (metadata : List (String × Json))
    (row_group_size : Nat := 200) : WriteResult :=
  let sorted := List.insertionSort tileLE tiles
  let rows : List Row :=
    { tile := METADATA_TILE_ID,
      metadata := some (jsonDumps (.obj metadata)), data := none } ::
    sorted.map (fun t => { tile := t.tile, metadata := none, data := some t.data })
  { file :=
      { rowGroups := chunksOf row_group_size rows,
        schema := tilequetSchema,
        fileMeta := [("tilequet:version", TILEQUET_VERSION)] },
    tilesAfter := sorted }

/-- The error taxonomy of the metadata reader: the three distinct raise
sites of `read_metadata` (no sentinel row; null metadata field;
`json.loads` failure). -/
inductive ReadError where
  | notFound
  | malformed
  | parseFailed

/-- `read_metadata` (`metadata.py` lines 151–176): a predicate-filtered
read restricted to `tile = 0`; errors per `ReadError`, otherwise the
parsed record. -/
def read_metadata (f : ParquetFile) : Except ReadError Json :=
  match f.rows.filter (fun r => r.tile == 0) with
  | [] => .error .notFound
  | r :: _ =>
      match r.metadata with
      | none => .error .malformed
      | some txt =>
          match jsonLoads txt with
          | none => .error .parseFailed
          | some j => .ok j

/-- `RuntimeError("Writer is already closed")` raised by `add_tile` and
`close` after `close`. -/
inductive WriterError where
  | alreadyClosed

/-- State of a `TileQuetWriter` session (`metadata.py` lines 225–342).
`written` is the sequence of row groups handed to the underlying
`pyarrow.ParquetWriter` so far. -/
structure TileQuetWriter where
  row_group_size : Nat
  max_memory_bytes : Nat
  buffer : List (Nat × Bytes)
  buffer_bytes : Nat
  tile_count : Nat
  closed : Bool
  written : List (List Row)

/-- `TileQuetWriter.__init__`: empty buffer and counters; the schema
carries the `tilequet:version` key.  `max_memory_mb` is converted to
bytes. -/
def TileQuetWriter.init (row_group_size : Nat := 200)
    (max_memory_mb : Nat := 512) : TileQuetWriter :=
  { row_group_size := row_group_size,
    max_memory_bytes := max_memory_mb * 1024 * 1024,
    buffer := [], buffer_bytes := 0, tile_count := 0,
    closed := false, written := [] }

/-- The file produced by the underlying `ParquetWriter` from the row
groups written so far. -/
def TileQuetWriter.file (w : TileQuetWriter) : ParquetFile :=
  { rowGroups := w.written,
    schema := tilequetSchema,
    fileMeta := [("tilequet:version", TILEQUET_VERSION)] }

/-- The comparison used by `self._buffer.sort(key=lambda t: t[0])`. -/
def bufLE (a b : Nat × Bytes) : Prop := a.1 ≤ b.1

instance : DecidableRel bufLE := fun a b => Nat.decLe a.1 b.1

/-- `TileQuetWriter._flush` (lines 285–310): no-op on an empty buffer;
otherwise sort the buffer by tile id, write it as row groups of
`row_group_size` rows, clear the buffer and reset the byte estimate. -/
def TileQuetWriter.flushBuf (w : TileQuetWriter) : TileQuetWriter :=
  if w.buffer.isEmpty then w
  else
    let sorted := List.insertionSort bufLE w.buffer
    let rows : List Row := sorted.map
      (fun t => { tile := t.1, metadata := none, data := some t.2 })
    { w with
      written := w.written ++ chunksOf w.row_group_size rows,
      buffer := [], buffer_bytes := 0 }

/-- `TileQuetWriter.add_tile` (lines 268–278): fails when closed;
appends to the buffer, adds `len(data) + 8` to the byte estimate,
increments the tile count, and flushes when the estimate reaches
`max_memory_bytes`. -/
def TileQuetWriter.add_tile (w : TileQuetWriter) (tile_id : Nat)
    (data : Bytes) : Except WriterError TileQuetWriter :=
  if w.closed then .error .alreadyClosed
  else
    let w' := { w with
      buffer := w.buffer ++ [(tile_id, data)],
      buffer_bytes := w.buffer_bytes + data.length + 8,
      tile_count := w.tile_count + 1 }
    if w'.buffer_bytes ≥ w'.max_memory_bytes then .ok w'.flushBuf
    else .ok w'

/-- The sentinel row written by `TileQuetWriter.close`. -/
def metaRow (metadata : List (String × Json)) : Row :=
  { tile := METADATA_TILE_ID,
    metadata := some (jsonDumps (.obj metadata)), data := none }

/-- `TileQuetWriter.close` (lines 312–330): fails when already closed;
flushes the remaining buffer, then writes one final row group holding
only the metadata row (`row_group_size=1` on a one-row table), and
closes the file. -/
def TileQuetWriter.close (w : TileQuetWriter)
    (metadata : List (String × Json)) : Except WriterError TileQuetWriter :=
  if w.closed then .error .alreadyClosed
  else
    let w' := w.flushBuf
    .ok { w' with
          written := w'.written ++ [[metaRow metadata]],
          closed := true }

/-- `validate_schema` (`validate.py` lines 61–83) over the (column
name, type name) pairs of the table schema.  The Python messages quote
column names; the quote characters are elided here. -/
def validate_schema (cols : List (String × String)) :
    List String × List String :=
  let fieldType := fun (name : String) =>
    (cols.find? (fun c => c.1 == name)).map (fun c => c.2)
  let e_tile := match fieldType "tile" with
    | none => ["Missing required column: tile"]
    | some ty =>
        if ty == "uint64" || ty == "int64" then []
        else [s!"Column tile should be uint64 or int64, got {ty}"]
  let e_meta := match fieldType "metadata" with
    | none => ["Missing required column: metadata"]
    | some ty =>
        if ty == "string" || ty == "utf8" || ty == "large_string" ||
           ty == "large_utf8" then []
        else [s!"Column metadata should be string, got {ty}"]
  let e_data := match fieldType "data" with
    | none => ["Missing required column: data"]
    | some ty =>
        if ty == "binary" || ty == "large_binary" then []
        else [s!"Column data should be binary, got {ty}"]
  (e_tile ++ e_meta ++ e_data, [])

/-- Python `j == s` for a JSON value against a string literal. -/
def Json.eqStr : Json → String → Bool
  | .str t, s => t == s
  | _, _ => false

/-- The required-field list of `validate_metadata`. -/
def requiredFields : List String :=
  ["tile_type", "tile_format", "bounds", "bounds_crs", "min_zoom",
   "max_zoom", "tiling"]

/-- The field checks of `validate_metadata` (`validate.py` lines
111–145) on an already-parsed metadata object, accumulating (errors,
warnings) in source order.  Python messages with quoted interpolated
values are elided to fixed texts. -/
def validateMetadataFields (fields : List (String × Json)) :
    List String × List String :=
  let e_ff :=
    if (getKey fields "file_format").elim false (fun v => v.eqStr "tilequet")
    then [] else ["Expected file_format tilequet, got other"]
  let version_ew : List String × List String :=
    match getKey fields "version" with
    | none => (["Missing version in metadata"], [])
    | some .null => (["Missing version in metadata"], [])
    | some v =>
        if v.eqStr "0.1.0" then ([], [])
        else ([], ["Unknown version, expected 0.1.0"])
  let e_req := requiredFields.filterMap (fun fld =>
    if hasKey fields fld then none
    else some s!"Missing required field {fld} in metadata")
  let e_tt :=
    match getKey fields "tile_type" with
    | none => []
    | some v =>
        if v.truthy &&
           !(v.eqStr "vector" || v.eqStr "raster" || v.eqStr "3d")
        then ["Invalid tile_type, expected vector, raster, or 3d"] else []
  let e_tiling :=
    match (getKey fields "tiling").getD (.obj []) with
    | .obj tf =>
        if (getKey tf "scheme").elim false (fun v => v.eqStr "quadbin")
        then [] else ["Tiling scheme must be quadbin, got other"]
    | _ => []
  let e_bounds :=
    match getKey fields "bounds" with
    | some (.arr l) =>
        let n := l.length
        if !l.isEmpty && n ≠ 4
        then [s!"Bounds must have 4 values, got {n}"] else []
    | _ => []
  (e_ff ++ version_ew.1 ++ e_req ++ e_tt ++ e_tiling ++ e_bounds,
   version_ew.2)

/-- `validate_metadata` (`validate.py` lines 86–145): locate and parse
the sentinel row, then run the field checks.  The outer `none` models
the uncaught `AttributeError` Python raises when the parsed JSON is not
an object (the `.get` calls sit outside the `try` block). -/
def validate_metadata (f : ParquetFile) :
    Option (List String × List String × Option (List (String × Json))) :=
  match f.rows.filter (fun r => r.tile == 0) with
  | [] => some (["No metadata row found (tile=0)"], [], none)
  | r :: _ =>
      match r.metadata with
      | none => some (["Metadata column is NULL in tile=0 row"], [], none)
      | some txt =>
          match jsonLoads txt with
          | none => some (["Invalid JSON in metadata"], [], none)
          | some (.obj fields) =>
              let ew := validateMetadataFields fields
              some (ew.1, ew.2, some fields)
          | some _ => none

/-- Zoom level of a quadbin cell: bits 52–56 (modelled from the external
`quadbin` library's `cell_to_tile`; the `try/except` around the decode
in `validate_tiles` skips library failures, which the total model never
produces). -/
def cellZoom (c : Nat) : Nat := c / 2 ^ 52 % 32

/-- Number of data rows whose decoded zoom equals `z` (the
`zoom_counts` tally of `validate_tiles`). -/
def zoomCount (rows : List Row) (z : Int) : Nat :=
  (rows.filter (fun r => (cellZoom r.tile : Int) == z)).length

/-- `metadata.get(key, 0)` as consumed by `range(min_zoom, max_zoom+1)`:
`some 0` when absent; `none` models the uncaught `TypeError` raised by
`range` on a non-integer value (null, string, fractional number). -/
def zoomArg (m : List (String × Json)) (k : String) : Option Int :=
  match getKey m k with
  | none => some 0
  | some (.num q) => if q.den = 1 then some q.num else none
  | some _ => none

/-- The declared zoom range `range(min_zoom, max_zoom + 1)`. -/
def zoomRange (mz Mz : Int) : List Int :=
  (List.range (Mz + 1 - mz).toNat).map (fun (i : Nat) => mz + (i : Int))

/-- The zoom-level warning emitted by `validate_tiles` for zoom `z`. -/
def zoomWarning (z : Int) : String := s!"Zoom {z}: No tiles found"

/-- `validate_tiles` (`validate.py` lines 148–190): tally data rows per
decoded zoom; a warning for each declared zoom with zero tiles; sample
first/middle/last data rows and warn on empty payloads.  The `errors`
component is built as `[]` and never appended to, exactly as in the
source.  The outer `none` models the uncaught `TypeError` from `range`
on non-integer zoom bounds. -/
def validate_tiles (f : ParquetFile) (m : List (String × Json)) :
    Option (List String × List String) :=
  match zoomArg m "min_zoom", zoomArg m "max_zoom" with
  | some mz, some Mz =>
      let data_rows := f.rows.filter (fun r => 0 < r.tile)
      let zoom_warnings := (zoomRange mz Mz).filterMap (fun z =>
        if zoomCount data_rows z == 0 then some (zoomWarning z) else none)
      let n := data_rows.length
      let sample_warnings :=
        if n == 0 then []
        else (([0, n / 2, n - 1].filter (· < n)).dedup).filterMap
          (fun i => match data_rows.get? i with
            | some r => match r.data with
                | some d =>
                    if d.isEmpty then some s!"Empty data blob at row {i}"
                    else none
                | none => none
            | none => none)
      some ([], zoom_warnings ++ sample_warnings)
  | _, _ => none

/-- `ValidationResult` (stats are reporting-only and outside the model). -/
structure ValidationResult where
  is_valid : Bool
  errors : List String
  warnings : List String
  metadata : Option (List (String × Json))

/-- `validate_tilequet` (`validate.py` lines 193–252): schema stage,
metadata stage, then — only when the parsed metadata dict is truthy —
the tiles stage; `is_valid` is emptiness of the accumulated errors.
The outer `none` propagates the uncaught exceptions modelled by the
stages; the input is the already-read table, so the open-stage
failure branch is outside the model. -/
def validate_tilequet (f : ParquetFile) : Option ValidationResult :=
  let sw := validate_schema f.schema
  match validate_metadata f with
  | none => none
  | some (e2, w2, mdOpt) =>
      match mdOpt with
      | some fields =>
          if (Json.obj fields).truthy then
            match validate_tiles f fields with
            | none => none
            | some (e3, w3) =>
                let es := sw.1 ++ e2 ++ e3
                some { is_valid := es.isEmpty, errors := es,
                       warnings := sw.2 ++ w2 ++ w3,
                       metadata := some fields }
          else
            let es := sw.1 ++ e2
            some { is_valid := es.isEmpty, errors := es,
                   warnings := sw.2 ++ w2, metadata := some fields }
      | none =>
          let es := sw.1 ++ e2
          some { is_valid := es.isEmpty, errors := es,
                 warnings := sw.2 ++ w2, metadata := none }

section Lemmas

theorem flatten_chunksOfGo (k : Nat) :
    ∀ (fuel : Nat) (l : List α), l.length ≤ fuel →
      (chunksOfGo k fuel l).flatten = l := by
  intro fuel
  induction fuel with
  | zero =>
      intro l hl
      cases l with
      | nil => simp [chunksOfGo]
      | cons a l => simp at hl
  | succ n ih =>
      intro l hl
      cases l with
      | nil => simp [chunksOfGo]
      | cons a l =>
          simp only [chunksOfGo, List.flatten_cons, List.cons_append]
          rw [ih (l.drop (k - 1))
            (by simp only [List.length_cons] at hl; simp only [List.length_drop]; omega)]
          simp [List.take_append_drop]

theorem flatten_chunksOf (k : Nat) (l : List α) :
    (chunksOf k l).flatten = l :=
  flatten_chunksOfGo k l.length l le_rfl

theorem length_le_of_mem_chunksOfGo {k : Nat} (hk : 0 < k) :
    ∀ (fuel : Nat) (l : List α), l.length ≤ fuel →
      ∀ g ∈ chunksOfGo k fuel l, g.length ≤ k := by
  intro fuel
  induction fuel with
  | zero =>
      intro l hl g hg
      cases l with
      | nil => simp [chunksOfGo] at hg
      | cons a l => simp at hl
  | succ n ih =>
      intro l hl g hg
      cases l with
      | nil => simp [chunksOfGo] at hg
      | cons a l =>
          simp only [chunksOfGo] at hg
          rcases List.mem_cons.mp hg with h | h
          · subst h
            simp only [List.length_cons, List.length_take]
            omega
          · exact ih (l.drop (k - 1))
              (by simp only [List.length_cons] at hl; simp only [List.length_drop]; omega) g h

theorem length_le_of_mem_chunksOf {k : Nat} (hk : 0 < k) {l : List α} :
    ∀ g ∈ chunksOf k l, g.length ≤ k :=
  length_le_of_mem_chunksOfGo hk l.length l le_rfl

theorem ne_nil_of_mem_chunksOfGo {k : Nat} :
    ∀ (fuel : Nat) (l : List α), l.length ≤ fuel →
      ∀ g ∈ chunksOfGo k fuel l, g ≠ [] := by
  intro fuel
  induction fuel with
  | zero =>
      intro l hl g hg
      cases l with
      | nil => simp [chunksOfGo] at hg
      | cons a l => simp at hl
  | succ n ih =>
      intro l hl g hg
      cases l with
      | nil => simp [chunksOfGo] at hg
      | cons a l =>
          simp only [chunksOfGo] at hg
          rcases List.mem_cons.mp hg with h | h
          · subst h; simp
          · exact ih (l.drop (k - 1))
              (by simp only [List.length_cons] at hl; simp only [List.length_drop]; omega) g h

theorem ne_nil_of_mem_chunksOf {k : Nat} {l : List α} :
    ∀ g ∈ chunksOf k l, g ≠ [] :=
  ne_nil_of_mem_chunksOfGo l.length l le_rfl

theorem getKey_setKey_ne (m : List (String × Json)) {k k' : String}
    (v : Json) (h : k ≠ k') : getKey (setKey m k' v) k = getKey m k := by
  induction m with
  | nil => simp [setKey, getKey, h]
  | cons p rest ih =>
      obtain ⟨pk, pv⟩ := p
      by_cases hp : k' = pk
      · subst hp
        simp [setKey, getKey, h]
      · simp only [setKey, if_neg hp, getKey]
        by_cases hkp : k = pk
        · simp [hkp]
        · simp [hkp, ih]

theorem getKey_foldl_setKey (ex : List (String × Json)) (k : String)
    (h : ∀ kv ∈ ex, kv.1 ≠ k) (m : List (String × Json)) :
    getKey (ex.foldl (fun m kv => setKey m kv.1 kv.2) m) k = getKey m k := by
  induction ex generalizing m with
  | nil => rfl
  | cons kv rest ih =>
      rw [List.foldl_cons,
        ih (fun x hx => h x (List.mem_cons_of_mem _ hx))]
      exact getKey_setKey_ne m kv.2
        (fun he => (h kv (List.mem_cons_self _ _)) he.symm)

instance : IsTotal Tile tileLE := ⟨fun a b => Nat.le_total a.tile b.tile⟩

instance : IsTrans Tile tileLE :=
  ⟨fun _ _ _ hab hbc => Nat.le_trans hab hbc⟩

instance : IsTotal (Nat × Bytes) bufLE := ⟨fun a b => Nat.le_total a.1 b.1⟩

instance : IsTrans (Nat × Bytes) bufLE :=
  ⟨fun _ _ _ hab hbc => Nat.le_trans hab hbc⟩

end Lemmas


theorem getKey_createOptional (a : CreateArgs) {k : String}
    (h1 : k ≠ "name") (h2 : k ≠ "description") (h3 : k ≠ "attribution")
    (h4 : k ≠ "layers") :
    getKey (createOptional a) k = getKey (createBase a) k := by
  unfold createOptional
  rcases a.name with _ | n <;> rcases a.description with _ | d <;>
    rcases a.attribution with _ | t <;> rcases a.layers with _ | l <;>
    simp only [getKey_setKey_ne _ _ h1, getKey_setKey_ne _ _ h2,
      getKey_setKey_ne _ _ h3, getKey_setKey_ne _ _ h4]

theorem getKey_create_metadata (a : CreateArgs) {k : String}
    (hx : ∀ kv ∈ a.extra, kv.1 ≠ k)
    (h1 : k ≠ "name") (h2 : k ≠ "description") (h3 : k ≠ "attribution")
    (h4 : k ≠ "layers") (h5 : k ≠ "processing") :
    getKey (create_metadata a) k = getKey (createBase a) k := by
  unfold create_metadata
  rw [getKey_foldl_setKey _ _ hx, getKey_setKey_ne _ _ h5,
    getKey_createOptional a h1 h2 h3 h4]

/-- A call passing `file_format` and `version` as extension keyword
arguments (they land in `**extra`). -/
def c1args : CreateArgs :=
  { tile_type := "vector", tile_format := "pbf",
    extra := [("file_format", .str "mbtiles"), ("version", .str "9.9.9")] }

/-- C1 counterexample: `metadata.update(extra)` runs after the identity
fields are set, so an extension map containing `file_format` or
`version` overwrites them — the record does not keep
`file_format = "tilequet"` / `version = TILEQUET_VERSION`. -/
theorem create_metadata_extra_overrides_identity :
    getKey (create_metadata c1args) "file_format" = some (.str "mbtiles") ∧
    getKey (create_metadata c1args) "version" = some (.str "9.9.9") ∧
    ¬ getKey (create_metadata c1args) "file_format" =
        some (.str "tilequet") ∧
    ¬ getKey (create_metadata c1args) "version" =
        some (.str TILEQUET_VERSION) := by
  refine ⟨rfl, rfl, ?_, ?_⟩
  · intro h
    rw [show getKey (create_metadata c1args) "file_format" =
          some (.str "mbtiles") from rfl] at h
    simp only [Option.some.injEq, Json.str.injEq] at h
    exact absurd h (by decide)
  · intro h
    rw [show getKey (create_metadata c1args) "version" =
          some (.str "9.9.9") from rfl] at h
    simp only [Option.some.injEq, Json.str.injEq, TILEQUET_VERSION] at h
    exact absurd h (by decide)

/-- C1 (amended): extensions are merged last and may overwrite any
field, the identity fields included; whenever the extension map does
not itself contain the keys `file_format` or `version`, the returned
record has `file_format = "tilequet"` and
`version = TILEQUET_VERSION`. -/
theorem create_metadata_identity_fields_default (a : CreateArgs)
    (hf : ∀ kv ∈ a.extra, kv.1 ≠ "file_format")
    (hv : ∀ kv ∈ a.extra, kv.1 ≠ "version") :
    getKey (create_metadata a) "file_format" = some (.str "tilequet") ∧
    getKey (create_metadata a) "version" = some (.str TILEQUET_VERSION) := by
  rw [getKey_create_metadata a hf (by decide) (by decide) (by decide)
      (by decide) (by decide),
    getKey_create_metadata a hv (by decide) (by decide) (by decide)
      (by decide) (by decide)]
  exact ⟨rfl, rfl⟩

/-- Extension map with a key that is not an identity field. -/
def c1wargs : CreateArgs :=
  { tile_type := "3d", tile_format := "b3dm",
    extra := [("tileset_json", .obj [])] }

/-- C1 witness: the amended statement at a concrete call. -/
theorem create_metadata_identity_fields_default_witness :
    (∀ kv ∈ c1wargs.extra, kv.1 ≠ "file_format") ∧
    (∀ kv ∈ c1wargs.extra, kv.1 ≠ "version") ∧
    (getKey (create_metadata c1wargs) "file_format" =
        some (.str "tilequet") ∧
      getKey (create_metadata c1wargs) "version" =
        some (.str TILEQUET_VERSION)) :=
  have hf : ∀ kv ∈ c1wargs.extra, kv.1 ≠ "file_format" := fun kv hkv => by
    simp only [c1wargs, List.mem_singleton] at hkv
    subst hkv; decide
  have hv : ∀ kv ∈ c1wargs.extra, kv.1 ≠ "version" := fun kv hkv => by
    simp only [c1wargs, List.mem_singleton] at hkv
    subst hkv; decide
  ⟨hf, hv, create_metadata_identity_fields_default c1wargs hf hv⟩

/-- A call providing none of the optional arguments. -/
def c5args : CreateArgs := { tile_type := "raster", tile_format := "png" }

/-- C5 counterexample: the base dict always contains the key `center`
(`"center": center` at `metadata.py` line 121), so a call without
`center` returns a record in which the key is present with a null
value, not absent. -/
theorem create_metadata_center_present_null :
    getKey (create_metadata c5args) "center" = some Json.null ∧
    ¬ getKey (create_metadata c5args) "center" = none := by
  refine ⟨rfl, ?_⟩
  intro h
  rw [show getKey (create_metadata c5args) "center" = some Json.null
      from rfl] at h
  exact Option.noConfusion h

/-- C5 (amended): each of the optional arguments `name`,
`description`, `attribution` and `layers` is, independently of the
others, omitted from the record entirely when that argument is not
provided (and the extension map does not supply that key); `center` is
always present, with a null value when not provided. -/
theorem create_metadata_optional_keys (a : CreateArgs) :
    (a.name = none → (∀ kv ∈ a.extra, kv.1 ≠ "name") →
      getKey (create_metadata a) "name" = none) ∧
    (a.description = none → (∀ kv ∈ a.extra, kv.1 ≠ "description") →
      getKey (create_metadata a) "description" = none) ∧
    (a.attribution = none → (∀ kv ∈ a.extra, kv.1 ≠ "attribution") →
      getKey (create_metadata a) "attribution" = none) ∧
    (a.layers = none → (∀ kv ∈ a.extra, kv.1 ≠ "layers") →
      getKey (create_metadata a) "layers" = none) ∧
    (a.center = none → (∀ kv ∈ a.extra, kv.1 ≠ "center") →
      getKey (create_metadata a) "center" = some Json.null) := by
  refine ⟨?_, ?_, ?_, ?_, ?_⟩
  · intro h hx
    unfold create_metadata
    rw [getKey_foldl_setKey _ _ hx,
      getKey_setKey_ne _ _ (by decide : "name" ≠ "processing")]
    unfold createOptional
    rw [h]
    rcases a.description with _ | d <;> rcases a.attribution with _ | t <;>
      rcases a.layers with _ | l <;> rfl
  · intro h hx
    unfold create_metadata
    rw [getKey_foldl_setKey _ _ hx,
      getKey_setKey_ne _ _ (by decide : "description" ≠ "processing")]
    unfold createOptional
    rw [h]
    rcases a.name with _ | n <;> rcases a.attribution with _ | t <;>
      rcases a.layers with _ | l <;> rfl
  · intro h hx
    unfold create_metadata
    rw [getKey_foldl_setKey _ _ hx,
      getKey_setKey_ne _ _ (by decide : "attribution" ≠ "processing")]
    unfold createOptional
    rw [h]
    rcases a.name with _ | n <;> rcases a.description with _ | d <;>
      rcases a.layers with _ | l <;> rfl
  · intro h hx
    unfold create_metadata
    rw [getKey_foldl_setKey _ _ hx,
      getKey_setKey_ne _ _ (by decide : "layers" ≠ "processing")]
    unfold createOptional
    rw [h]
    rcases a.name with _ | n <;> rcases a.description with _ | d <;>
      rcases a.attribution with _ | t <;> rfl
  · intro h hx
    unfold create_metadata
    rw [getKey_foldl_setKey _ _ hx,
      getKey_setKey_ne _ _ (by decide : "center" ≠ "processing"),
      getKey_createOptional a (by decide) (by decide) (by decide)
        (by decide)]
    unfold createBase
    rw [h]
    rfl

/-- A mixed call: `name` provided, the other optionals omitted. -/
def c5margs : CreateArgs :=
  { tile_type := "raster", tile_format := "png", name := some "X" }

/-- C5 witness: the amended statement at a mixed concrete call —
`description` (omitted) has no key even though `name` is provided and
present, and `center` is present with a null value. -/
theorem create_metadata_optional_keys_witness :
    c5margs.description = none ∧ c5margs.center = none ∧
    (∀ kv ∈ c5margs.extra, kv.1 ≠ "description") ∧
    (∀ kv ∈ c5margs.extra, kv.1 ≠ "center") ∧
    getKey (create_metadata c5margs) "description" = none ∧
    getKey (create_metadata c5margs) "center" = some Json.null ∧
    getKey (create_metadata c5margs) "name" = some (.str "X") :=
  have hempty : ∀ (k : String), ∀ kv ∈ c5margs.extra, kv.1 ≠ k :=
    fun _ kv hkv => absurd hkv (List.not_mem_nil kv)
  ⟨rfl, rfl, hempty "description", hempty "center",
    (create_metadata_optional_keys c5margs).2.1 rfl (hempty "description"),
    (create_metadata_optional_keys c5margs).2.2.2.2 rfl (hempty "center"),
    rfl⟩

theorem write_tilequet_rows (tiles : List Tile)
    (metadata : List (String × Json)) (rgs : Nat) :
    (write_tilequet tiles metadata rgs).file.rows =
      { tile := METADATA_TILE_ID,
        metadata := some (jsonDumps (.obj metadata)), data := none } ::
      (List.insertionSort tileLE tiles).map
        (fun t => { tile := t.tile, metadata := none, data := some t.data }) := by
  unfold write_tilequet ParquetFile.rows
  exact flatten_chunksOf rgs _

/-- C2: the bulk writer's output has the sentinel row (id 0) first, and
the remaining row ids are the input tile ids sorted ascending (the
concrete instance `{100, 5, 50} ↦ [0, 5, 50, 100]` is in the witness). -/
theorem write_tilequet_global_order (tiles : List Tile)
    (metadata : List (String × Json)) (rgs : Nat)
    (hpos : ∀ t ∈ tiles, 0 < t.tile) :
    ∃ ids : List Nat,
      ((write_tilequet tiles metadata rgs).file.rows).map Row.tile =
        0 :: ids ∧
      List.Sorted (· ≤ ·) ids ∧
      ids.Perm (tiles.map Tile.tile) ∧
      ∀ i ∈ ids, 0 < i := by
  refine ⟨(List.insertionSort tileLE tiles).map Tile.tile, ?_, ?_, ?_, ?_⟩
  · rw [write_tilequet_rows]
    simp [METADATA_TILE_ID]
  · have hs := List.sorted_insertionSort tileLE tiles
    exact (List.pairwise_map).mpr hs
  · exact (List.perm_insertionSort tileLE tiles).map Tile.tile
  · intro i hi
    obtain ⟨t, ht, rfl⟩ := List.mem_map.mp hi
    exact hpos t ((List.perm_insertionSort tileLE tiles).mem_iff.mp ht)

/-- The concrete bulk-writer input of the specification scenario:
ids 100, 5, 50. -/
def c2tiles : List Tile := [⟨100, [97]⟩, ⟨5, [98]⟩, ⟨50, [99]⟩]

/-- C2 witness: the theorem applied at ids `{100, 5, 50}`, together
with the exact output id sequence `[0, 5, 50, 100]`. -/
theorem write_tilequet_global_order_witness :
    (∀ t ∈ c2tiles, 0 < t.tile) ∧
    (∃ ids : List Nat,
      ((write_tilequet c2tiles [] 200).file.rows).map Row.tile =
        0 :: ids ∧
      List.Sorted (· ≤ ·) ids ∧
      ids.Perm (c2tiles.map Tile.tile) ∧
      ∀ i ∈ ids, 0 < i) ∧
    ((write_tilequet c2tiles [] 200).file.rows).map Row.tile =
      [0, 5, 50, 100] :=
  ⟨by decide, write_tilequet_global_order c2tiles [] 200 (by decide),
    by decide⟩

/-- C9: `write_tilequet` sorts the caller's `tiles` list in place
(`tiles.sort(key=...)`): after the call the list is a permutation of
the original, ascending by tile id, with no element added, removed or
modified. -/
theorem write_tilequet_sorts_in_place (tiles : List Tile)
    (metadata : List (String × Json)) (rgs : Nat) :
    (write_tilequet tiles metadata rgs).tilesAfter =
      List.insertionSort tileLE tiles ∧
    ((write_tilequet tiles metadata rgs).tilesAfter).Perm tiles ∧
    List.Sorted tileLE ((write_tilequet tiles metadata rgs).tilesAfter) :=
  ⟨rfl, List.perm_insertionSort tileLE tiles,
    List.sorted_insertionSort tileLE tiles⟩

/-- C3: metadata round-trip through the bulk writer — for any record
`m` and any rows with distinct positive ids, reading the metadata of
the written container returns `m` exactly, independent of row count. -/
theorem write_read_roundtrip (tiles : List Tile)
    (metadata : List (String × Json)) (rgs : Nat)
    (hpos : ∀ t ∈ tiles, 0 < t.tile)
    (_hdist : List.Pairwise (fun a b : Tile => a.tile ≠ b.tile) tiles) :
    read_metadata (write_tilequet tiles metadata rgs).file =
      .ok (.obj metadata) := by
  unfold read_metadata
  rw [write_tilequet_rows]
  rw [List.filter_cons_of_pos (by simp [METADATA_TILE_ID])]
  rw [List.filter_eq_nil_iff.mpr ?mapped]
  case mapped =>
    intro r hr
    obtain ⟨t, ht, rfl⟩ := List.mem_map.mp hr
    have : 0 < t.tile :=
      hpos t ((List.perm_insertionSort tileLE tiles).mem_iff.mp ht)
    simp only [beq_iff_eq]
    omega
  rfl

/-- Concrete round-trip input: two rows, a two-key record. -/
def c3meta : List (String × Json) :=
  [("name", .str "t"), ("num_tiles", .num 2)]

/-- C3 witness: the round-trip at two concrete rows. -/
theorem write_read_roundtrip_witness :
    (∀ t ∈ ([⟨5, [1]⟩, ⟨9, [2]⟩] : List Tile), 0 < t.tile) ∧
    List.Pairwise (fun a b : Tile => a.tile ≠ b.tile)
      [⟨5, [1]⟩, ⟨9, [2]⟩] ∧
    read_metadata
        (write_tilequet [⟨5, [1]⟩, ⟨9, [2]⟩] c3meta 200).file =
      .ok (.obj c3meta) :=
  ⟨by decide, by decide,
    write_read_roundtrip [⟨5, [1]⟩, ⟨9, [2]⟩] c3meta 200
      (by decide) (by decide)⟩

/-- C6: `read_metadata` is restricted by predicate to the `tile = 0`
rows and fails with `notFound` exactly when no such row exists, with
`malformed` exactly when the first such row's metadata field is null,
with `parseFailed` exactly when its text is not valid JSON, and
otherwise returns exactly the parsed record. -/
theorem read_metadata_cases (f : ParquetFile) :
    (∀ g : ParquetFile,
      g.rows.filter (fun r => r.tile == 0) =
        f.rows.filter (fun r => r.tile == 0) →
      read_metadata g = read_metadata f) ∧
    (read_metadata f = .error .notFound ↔
      f.rows.filter (fun r => r.tile == 0) = []) ∧
    (∀ r rest, f.rows.filter (fun r => r.tile == 0) = r :: rest →
      ((read_metadata f = .error .malformed ↔ r.metadata = none) ∧
       (read_metadata f = .error .parseFailed ↔
         ∃ s, r.metadata = some (.invalid s)) ∧
       (∀ j, read_metadata f = .ok j ↔
         r.metadata = some (.valid j)))) := by
  refine ⟨?_, ?_, ?_⟩
  · intro g hg
    unfold read_metadata
    rw [hg]
  · unfold read_metadata
    cases hfil : f.rows.filter (fun r => r.tile == 0) with
    | nil => simp
    | cons r rest =>
        simp only [iff_false, List.cons_ne_nil,
          iff_false_intro (List.cons_ne_nil r rest)]
        cases r.metadata with
        | none => simp
        | some txt => cases txt <;> simp [jsonLoads]
  · intro r rest hfil
    obtain ⟨rt, rm, rd⟩ := r
    unfold read_metadata
    rw [hfil]
    refine ⟨?_, ?_, ?_⟩
    · cases rm with
      | none => simp
      | some txt => cases txt <;> simp [jsonLoads]
    · cases rm with
      | none => simp
      | some txt => cases txt <;> simp [jsonLoads]
    · intro j
      cases rm with
      | none => simp
      | some txt => cases txt <;> simp [jsonLoads]

/-- A file with two empty row groups and no rows at all. -/
def emptyFile : ParquetFile :=
  { rowGroups := [[], []], schema := tilequetSchema, fileMeta := [] }

/-- C6 witness: the theorem applied at a concrete row-less file yields
the `notFound` failure. -/
theorem read_metadata_cases_witness :
    read_metadata emptyFile = .error .notFound :=
  (read_metadata_cases emptyFile).2.1.mpr rfl

/-- The rows a flush hands to the Parquet writer: the buffer sorted by
tile id, as rows with null metadata. -/
def flushRows (w : TileQuetWriter) : List Row :=
  (List.insertionSort bufLE w.buffer).map
    (fun t => { tile := t.1, metadata := none, data := some t.2 })

/-- A writer whose buffer holds three tiles with `row_group_size = 2`. -/
def c4writer : TileQuetWriter :=
  { row_group_size := 2, max_memory_bytes := 0,
    buffer := [(1, [7]), (2, [8]), (3, [9])],
    buffer_bytes := 27, tile_count := 3, closed := false, written := [] }

/-- C4 counterexample: a flush of a 3-tile buffer with
`row_group_size = 2` hands the table to the writer split into two row
groups, not one — `write_table(table, row_group_size=...)` chunks the
flushed table. -/
theorem flush_not_one_row_group :
    (c4writer.flushBuf).written.length = 2 ∧
    ¬ (c4writer.flushBuf).written.length = 1 :=
  ⟨rfl, by decide⟩

/-- C4 (amended): every internal flush of a nonempty buffer sorts the
buffered rows ascending by id and emits them as consecutive row groups
of at most `row_group_size` rows each (so exactly one row group only
when the buffer fits in one), after which the buffer is empty and the
running byte estimate is 0. -/
theorem flush_sorted_chunks (w : TileQuetWriter)
    (hb : w.buffer ≠ []) (hk : 0 < w.row_group_size) :
    (w.flushBuf).buffer = [] ∧
    (w.flushBuf).buffer_bytes = 0 ∧
    (w.flushBuf).written =
      w.written ++ chunksOf w.row_group_size (flushRows w) ∧
    (chunksOf w.row_group_size (flushRows w)).flatten = flushRows w ∧
    List.Sorted (fun a b : Row => a.tile ≤ b.tile) (flushRows w) ∧
    (∀ g ∈ chunksOf w.row_group_size (flushRows w),
      g.length ≤ w.row_group_size ∧ g ≠ []) := by
  have hne : w.buffer.isEmpty = false := by
    cases hbuf : w.buffer with
    | nil => exact absurd hbuf hb
    | cons a l => rfl
  unfold TileQuetWriter.flushBuf
  rw [hne, if_neg Bool.false_ne_true]
  refine ⟨rfl, rfl, rfl, flatten_chunksOf _ _, ?_, ?_⟩
  · exact (List.pairwise_map).mpr (List.sorted_insertionSort bufLE w.buffer)
  · intro g hg
    exact ⟨length_le_of_mem_chunksOf hk g hg, ne_nil_of_mem_chunksOf g hg⟩

/-- A writer whose two-tile buffer arrives out of order. -/
def c4writer2 : TileQuetWriter :=
  { row_group_size := 2, max_memory_bytes := 0,
    buffer := [(9, [1]), (4, [2])],
    buffer_bytes := 18, tile_count := 2, closed := false, written := [] }

/-- C4 witness: the amended statement at a concrete writer state. -/
theorem flush_sorted_chunks_witness :
    c4writer2.buffer ≠ [] ∧ 0 < c4writer2.row_group_size ∧
    ((c4writer2.flushBuf).buffer = [] ∧
      (c4writer2.flushBuf).buffer_bytes = 0 ∧
      (c4writer2.flushBuf).written =
        c4writer2.written ++
          chunksOf c4writer2.row_group_size (flushRows c4writer2) ∧
      (chunksOf c4writer2.row_group_size
          (flushRows c4writer2)).flatten = flushRows c4writer2 ∧
      List.Sorted (fun a b : Row => a.tile ≤ b.tile)
        (flushRows c4writer2) ∧
      (∀ g ∈ chunksOf c4writer2.row_group_size (flushRows c4writer2),
        g.length ≤ c4writer2.row_group_size ∧ g ≠ [])) :=
  ⟨by decide, by decide,
    flush_sorted_chunks c4writer2 (by decide) (by decide)⟩

/-- C10: a streaming session in which `add_tile` is never called still
closes successfully and produces a container whose single row is the
sentinel (`metaRow` carries id 0 and the serialized metadata), with
`tile_count` still 0. -/
theorem close_without_adds (rgs mmb : Nat) (m : List (String × Json)) :
    ((TileQuetWriter.init rgs mmb).close m).map
        (fun w' => (w'.file.rows, w'.tile_count)) =
      .ok ([metaRow m], 0) ∧
    (metaRow m).tile = 0 ∧
    (metaRow m).metadata = some (jsonDumps (.obj m)) :=
  ⟨rfl, rfl, rfl⟩

/-- Run a sequence of `add_tile` calls against a writer state (a
streaming session between `open` and `close`). -/
def runAdds (w : TileQuetWriter) :
    List (Nat × Bytes) → Except WriterError TileQuetWriter
  | [] => .ok w
  | (i, d) :: rest =>
      match w.add_tile i d with
      | .error e => .error e
      | .ok w' => runAdds w' rest

/-- Session invariant maintained by `add_tile`: the writer is open, all
row groups written so far hold data rows only (null metadata), and the
number of rows written plus buffered equals the number of adds. -/
def WriterInv (w : TileQuetWriter) (nadds : Nat) : Prop :=
  w.closed = false ∧
  (∀ r ∈ w.written.flatten, r.metadata = none) ∧
  w.written.flatten.length + w.buffer.length = nadds ∧
  w.tile_count = nadds

theorem writerInv_init (rgs mmb : Nat) :
    WriterInv (TileQuetWriter.init rgs mmb) 0 := by
  refine ⟨rfl, ?_, rfl, rfl⟩
  intro r hr
  simp [TileQuetWriter.init] at hr

theorem writerInv_flushBuf {w : TileQuetWriter} {n : Nat}
    (h : WriterInv w n) : WriterInv w.flushBuf n := by
  obtain ⟨hc, hmeta, hlen, hcount⟩ := h
  unfold TileQuetWriter.flushBuf
  by_cases hbe : w.buffer.isEmpty
  · rw [if_pos hbe]; exact ⟨hc, hmeta, hlen, hcount⟩
  · rw [if_neg hbe]
    refine ⟨hc, ?_, ?_, hcount⟩
    · intro r hr
      rw [List.flatten_append] at hr
      rcases List.mem_append.mp hr with h | h
      · exact hmeta r h
      · rw [flatten_chunksOf] at h
        obtain ⟨t, _, rfl⟩ := List.mem_map.mp h
        rfl
    · rw [List.flatten_append, List.length_append, flatten_chunksOf,
        List.length_map, List.length_nil,
        ((List.perm_insertionSort bufLE w.buffer).length_eq)]
      omega

theorem writerInv_add_tile {w w' : TileQuetWriter} {n : Nat} {i : Nat}
    {d : Bytes} (h : WriterInv w n) (hadd : w.add_tile i d = .ok w') :
    WriterInv w' (n + 1) := by
  obtain ⟨hc, hmeta, hlen, hcount⟩ := h
  unfold TileQuetWriter.add_tile at hadd
  rw [hc, if_neg Bool.false_ne_true] at hadd
  set w1 : TileQuetWriter :=
    { w with buffer := w.buffer ++ [(i, d)],
             buffer_bytes := w.buffer_bytes + d.length + 8,
             tile_count := w.tile_count + 1,
             closed := false } with hw1
  have hinv1 : WriterInv w1 (n + 1) := by
    refine ⟨rfl, hmeta, ?_, ?_⟩
    · simp only [hw1, List.length_append, List.length_cons,
        List.length_nil]
      omega
    · simp only [hw1]
      omega
  by_cases hge : w1.buffer_bytes ≥ w1.max_memory_bytes
  · rw [if_pos hge] at hadd
    have h1 : w1.flushBuf = w' := by injection hadd
    exact h1 ▸ writerInv_flushBuf hinv1
  · rw [if_neg hge] at hadd
    have h1 : w1 = w' := by injection hadd
    exact h1 ▸ hinv1

theorem writerInv_runAdds {w w' : TileQuetWriter} {n : Nat}
    {ops : List (Nat × Bytes)} (h : WriterInv w n)
    (hrun : runAdds w ops = .ok w') :
    WriterInv w' (n + ops.length) := by
  induction ops generalizing w n with
  | nil =>
      simp only [runAdds] at hrun
      cases hrun
      simpa using h
  | cons op rest ih =>
      obtain ⟨i, d⟩ := op
      simp only [runAdds] at hrun
      cases hadd : w.add_tile i d with
      | error e => rw [hadd] at hrun; exact absurd hrun (by simp)
      | ok w1 =>
          rw [hadd] at hrun
          have := ih (writerInv_add_tile h hadd) hrun
          simpa [Nat.add_comm, Nat.add_assoc, Nat.add_left_comm] using this

theorem flushBuf_buffer_empty (w : TileQuetWriter) :
    (w.flushBuf).buffer = [] := by
  unfold TileQuetWriter.flushBuf
  by_cases hbe : w.buffer.isEmpty
  · rw [if_pos hbe]
    exact List.isEmpty_iff.mp hbe
  · rw [if_neg hbe]

/-- C8: closing any streaming session (`init` followed by a successful
run of `add_tile` calls) appends the sentinel row after all data rows:
it is the last row of the container, alone in the final row group, and
it is the first row exactly when no tiles were added. -/
theorem streaming_sentinel_last (rgs mmb : Nat)
    (ops : List (Nat × Bytes)) (m : List (String × Json))
    (w : TileQuetWriter)
    (hrun : runAdds (TileQuetWriter.init rgs mmb) ops = .ok w) :
    ∃ w', w.close m = .ok w' ∧
      w'.written.getLast? = some [metaRow m] ∧
      w'.file.rows =
        (w.flushBuf).written.flatten ++ [metaRow m] ∧
      (∀ r ∈ (w.flushBuf).written.flatten, r.metadata = none) ∧
      (w'.file.rows.head? = some (metaRow m) ↔ ops = []) := by
  have hinv0 := writerInv_runAdds (writerInv_init rgs mmb) hrun
  have hinv := writerInv_flushBuf hinv0
  obtain ⟨hc0, _, _, _⟩ := hinv0
  obtain ⟨_, hmeta, hlen, _⟩ := hinv
  have hbuf : (w.flushBuf).buffer = [] := flushBuf_buffer_empty w
  rw [hbuf, List.length_nil, Nat.add_zero, Nat.zero_add] at hlen
  refine ⟨{ w.flushBuf with
            written := (w.flushBuf).written ++ [[metaRow m]],
            closed := true }, ?_, ?_, ?_, hmeta, ?_⟩
  · unfold TileQuetWriter.close
    rw [hc0, if_neg Bool.false_ne_true]
  · exact List.getLast?_concat _
  · simp [TileQuetWriter.file, ParquetFile.rows, List.flatten_append]
  · have hrows : ({ w.flushBuf with
        written := (w.flushBuf).written ++ [[metaRow m]],
        closed := true } : TileQuetWriter).file.rows =
        (w.flushBuf).written.flatten ++ [metaRow m] := by
      simp [TileQuetWriter.file, ParquetFile.rows, List.flatten_append]
    rw [hrows]
    cases hD : (w.flushBuf).written.flatten with
    | nil =>
        rw [hD] at hlen
        simp only [List.nil_append, List.head?_cons, true_iff]
        exact List.length_eq_zero.mp (by simpa using hlen.symm)
    | cons r D' =>
        rw [hD] at hlen
        simp only [List.cons_append, List.head?_cons]
        constructor
        · intro hhead
          have hr : r = metaRow m := Option.some.inj hhead
          have : r.metadata = none :=
            hmeta r (hD ▸ List.mem_cons_self r D')
          rw [hr] at this
          exact absurd this (by simp [metaRow])
        · intro hops
          rw [hops] at hlen
          simp at hlen

/-- The writer state after `init 2 0` followed by one `add_tile 7 [1]`
(the zero memory threshold forces an immediate flush). -/
def c8w : TileQuetWriter :=
  { row_group_size := 2, max_memory_bytes := 0, buffer := [],
    buffer_bytes := 0, tile_count := 1, closed := false,
    written := [[{ tile := 7, metadata := none, data := some [1] }]] }

/-- C8 witness: the theorem applied to a concrete one-add session. -/
theorem streaming_sentinel_last_witness :
    runAdds (TileQuetWriter.init 2 0) [(7, [1])] = .ok c8w ∧
    (∃ w', c8w.close [] = .ok w' ∧
      w'.written.getLast? = some [metaRow []] ∧
      w'.file.rows = (c8w.flushBuf).written.flatten ++ [metaRow []] ∧
      (∀ r ∈ (c8w.flushBuf).written.flatten, r.metadata = none) ∧
      (w'.file.rows.head? = some (metaRow []) ↔
        ([(7, [1])] : List (Nat × Bytes)) = [])) :=
  ⟨rfl, streaming_sentinel_last 2 0 [(7, [1])] [] c8w rfl⟩

/-- C7: for any container whose sentinel metadata parses to a
(nonempty) object declaring an integer zoom range, every zoom level in
that range with zero tallied tiles contributes the warning naming that
zoom; the tiles stage contributes no errors (its error list is `[]`),
so the validator's errors — and hence `is_valid` — are exactly those of
the schema and metadata stages, independent of the zoom tallies. -/
theorem validator_empty_zoom_warning (f : ParquetFile)
    (fields : List (String × Json)) (mz Mz z : Int)
    (r : Row) (rest : List Row)
    (hsent : f.rows.filter (fun r => r.tile == 0) = r :: rest)
    (hmeta : r.metadata = some (jsonDumps (.obj fields)))
    (hne : fields ≠ [])
    (hmz : zoomArg fields "min_zoom" = some mz)
    (hMz : zoomArg fields "max_zoom" = some Mz)
    (hzl : mz ≤ z) (hzr : z ≤ Mz)
    (hcount : zoomCount (f.rows.filter (fun r => 0 < r.tile)) z = 0) :
    ∃ ws res,
      validate_tiles f fields = some ([], ws) ∧
      zoomWarning z ∈ ws ∧
      validate_tilequet f = some res ∧
      zoomWarning z ∈ res.warnings ∧
      res.errors =
        (validate_schema f.schema).1 ++ (validateMetadataFields fields).1 ∧
      res.is_valid = res.errors.isEmpty := by
  have hvm : validate_metadata f =
      some ((validateMetadataFields fields).1,
        (validateMetadataFields fields).2, some fields) := by
    unfold validate_metadata
    rw [hsent]
    simp [hmeta, jsonDumps, jsonLoads]
  have htr : (Json.obj fields).truthy = true := by
    cases fields with
    | nil => exact absurd rfl hne
    | cons a l => rfl
  have hzmem : z ∈ zoomRange mz Mz := by
    unfold zoomRange
    refine List.mem_map.mpr
      ⟨(z - mz).toNat, List.mem_range.mpr ?_, ?_⟩ <;> omega
  obtain ⟨ws, hvt, hwm⟩ : ∃ ws,
      validate_tiles f fields = some ([], ws) ∧ zoomWarning z ∈ ws := by
    unfold validate_tiles
    rw [hmz, hMz]
    refine ⟨_, rfl,
      List.mem_append_left _ (List.mem_filterMap.mpr ⟨z, hzmem, ?_⟩)⟩
    rw [hcount]
    rfl
  refine ⟨ws,
    { is_valid := ((validate_schema f.schema).1 ++
        (validateMetadataFields fields).1).isEmpty,
      errors := (validate_schema f.schema).1 ++
        (validateMetadataFields fields).1,
      warnings := (validate_schema f.schema).2 ++
        (validateMetadataFields fields).2 ++ ws,
      metadata := some fields }, hvt, hwm, ?_, ?_, ?_, ?_⟩
  · unfold validate_tilequet
    rw [hvm]
    simp only [htr, hvt, eq_self_iff_true, if_true, List.append_nil]
  · simp only [List.mem_append]
    exact Or.inr hwm
  · rfl
  · rfl

/-- A fully valid metadata record declaring zoom range [0, 0]. -/
def c7fields : List (String × Json) :=
  [("file_format", .str "tilequet"), ("version", .str "0.1.0"),
   ("tile_type", .str "raster"), ("tile_format", .str "png"),
   ("bounds", .arr [.num (-180), .num (-85), .num 180, .num 85]),
   ("bounds_crs", .str "EPSG:4326"), ("min_zoom", .num 0),
   ("max_zoom", .num 0), ("num_tiles", .num 0),
   ("tiling", .obj [("scheme", .str "quadbin")])]

/-- The sentinel row of the concrete validator input. -/
def c7row : Row :=
  { tile := 0, metadata := some (jsonDumps (.obj c7fields)), data := none }

/-- A schema-correct container with valid metadata and no data rows. -/
def c7file : ParquetFile :=
  { rowGroups := [[c7row]], schema := tilequetSchema,
    fileMeta := [("tilequet:version", TILEQUET_VERSION)] }

/-- C7 witness: the theorem applied at a concrete zero-tile container;
the final conjunct checks that the schema and metadata stages report no
errors there, so the container is valid despite the empty-zoom
warning. -/
theorem validator_empty_zoom_warning_witness :
    zoomCount (c7file.rows.filter (fun r => 0 < r.tile)) 0 = 0 ∧
    (∃ ws res,
      validate_tiles c7file c7fields = some ([], ws) ∧
      zoomWarning 0 ∈ ws ∧
      validate_tilequet c7file = some res ∧
      zoomWarning 0 ∈ res.warnings ∧
      res.errors = (validate_schema c7file.schema).1 ++
        (validateMetadataFields c7fields).1 ∧
      res.is_valid = res.errors.isEmpty) ∧
    (validate_schema c7file.schema).1 ++
      (validateMetadataFields c7fields).1 = [] :=
  ⟨rfl,
   validator_empty_zoom_warning c7file c7fields 0 0 0 c7row [] rfl rfl
     (by unfold c7fields; exact List.cons_ne_nil _ _) rfl rfl
     (by decide) (by decide) rfl,
   rfl⟩
